import Mathlib

/-!
Verification development for the vellum upload-to-completion lifecycle
coordinator.  The definitions below are a shallow embedding of the
TypeScript sources:

  src/lib/videoStore.ts        record store backed by the videos table
  src/lib/tusServer.ts         upload-protocol hooks and callback cron
  src/lib/videoProcessor.ts    queue worker
  src/controllers/utils/upload-utils.ts   transcode and storage upload
  src/lib/auth.ts, src/router  bearer auth and the exposed endpoints

Dates are modelled as natural-number timestamps, the SQLite table as a
list of rows, queue/HTTP/process effects as explicit inputs.
-/

/-- status column of an upload record (videoStore.ts). -/
inductive Status
  | uploading
  | processing
  | completed
  | failed
deriving DecidableEq, Repr

/-- callbackStatus column of an upload record (videoStore.ts). -/
inductive CallbackStatus
  | pending
  | completed
  | failed
deriving DecidableEq, Repr

/-- One row of the videos table (interface VideoRecord in videoStore.ts).
Dates are Nat timestamps; optional columns are Option. -/
structure VideoRecord where
  id : String
  filename : String
  status : Status
  progress : Nat
  streamUrl : Option String
  thumbnailUrl : Option String
  createdAt : Nat
  completedAt : Option Nat
  error : Option String
  packager : Option String
  callbackUrl : Option String
  callbackStatus : CallbackStatus
  callbackRetryCount : Nat
  callbackLastAttempt : Option Nat
  s3Path : Option String
deriving DecidableEq, Repr

/-- The videos table: a list of rows.  SQLite's PRIMARY KEY constraint on
id is carried as a Nodup hypothesis where a theorem needs it. -/
abbrev Store := List VideoRecord

/-- SELECT * FROM videos WHERE id = ? (getVideoRecord in videoStore.ts):
first row whose id column matches. -/
def getVideoRecord : Store → String → Option VideoRecord
  | [], _ => none
  | r :: rest, id => if r.id = id then some r else getVideoRecord rest id

/-- JavaScript `v || null` applied to a nullable TEXT column: the empty
string is falsy and is stored as NULL. -/
def nz (v : Option String) : Option String :=
  if v = some "" then none else v

/-- Normalisation applied by every INSERT/UPDATE in videoStore.ts, which
writes `value || null` for the nullable string columns. -/
def dbRow (r : VideoRecord) : VideoRecord :=
  { r with
    streamUrl := nz r.streamUrl
    thumbnailUrl := nz r.thumbnailUrl
    error := nz r.error
    packager := nz r.packager
    callbackUrl := nz r.callbackUrl
    s3Path := nz r.s3Path }

/-- Effect of the UPDATE statement in updateVideoRecord on one row with
the matching id: every column listed in SET takes the merged value; id
and createdAt are not in the SET list and keep the row's own value. -/
def applyRow (merged : VideoRecord) (x : VideoRecord) : VideoRecord :=
  { merged with id := x.id, createdAt := x.createdAt }

/-- UPDATE videos SET ... WHERE id = ? : rewrite every row whose id
matches, leave the others. -/
def updateStore (s : Store) (id : String) (merged : VideoRecord) : Store :=
  s.map fun x => if x.id = id then dbRow (applyRow merged x) else x

/-- A Partial VideoRecord argument of updateVideoRecord: fields present
in the JS object literal are some, absent fields are none. -/
structure RecordUpdates where
  filename : Option String := none
  status : Option Status := none
  progress : Option Nat := none
  streamUrl : Option String := none
  thumbnailUrl : Option String := none
  error : Option String := none
  packager : Option String := none
  callbackUrl : Option String := none
  callbackStatus : Option CallbackStatus := none
  callbackRetryCount : Option Nat := none
  callbackLastAttempt : Option Nat := none
  s3Path : Option String := none
  completedAt : Option Nat := none
deriving Repr

/-- Spread semantics for an optional field: a present update key
overwrites, an absent one keeps the old value. -/
def keep (u : Option α) (old : Option α) : Option α :=
  match u with
  | some v => some v
  | none => old

/-- `updatedRecord = { ...record, ...updates }` followed by the
auto-stamp `if (updates.status === "completed") completedAt = new Date()`
(updateVideoRecord in videoStore.ts). -/
def applyUpdates (now : Nat) (r : VideoRecord) (u : RecordUpdates) : VideoRecord :=
  let m : VideoRecord :=
    { r with
      filename := u.filename.getD r.filename
      status := u.status.getD r.status
      progress := u.progress.getD r.progress
      streamUrl := keep u.streamUrl r.streamUrl
      thumbnailUrl := keep u.thumbnailUrl r.thumbnailUrl
      error := keep u.error r.error
      packager := keep u.packager r.packager
      callbackUrl := keep u.callbackUrl r.callbackUrl
      callbackStatus := u.callbackStatus.getD r.callbackStatus
      callbackRetryCount := u.callbackRetryCount.getD r.callbackRetryCount
      callbackLastAttempt := keep u.callbackLastAttempt r.callbackLastAttempt
      s3Path := keep u.s3Path r.s3Path
      completedAt := keep u.completedAt r.completedAt }
  if u.status = some Status.completed then { m with completedAt := some now } else m

/-- The row stored for the updated id, as a function of the row that was
read: merge, per-row id/createdAt preservation, NULL normalisation. -/
def afterUpd (now : Nat) (u : RecordUpdates) (x : VideoRecord) : VideoRecord :=
  dbRow (applyRow (applyUpdates now x u) x)

/-- updateVideoRecord in videoStore.ts: read the record, merge the
updates (auto-stamping completedAt when status becomes completed), write
the merged values back, return the merged record; absent id is a no-op
returning undefined. -/
def updateVideoRecord (now : Nat) (s : Store) (id : String) (u : RecordUpdates) :
    Store × Option VideoRecord :=
  match getVideoRecord s id with
  | none => (s, none)
  | some r =>
      let merged := applyUpdates now r u
      (updateStore s id merged, some merged)

/-- Result record of safelyTransitionToProcessing in videoStore.ts. -/
structure TransitionOutcome where
  store : Store
  success : Bool
  record : Option VideoRecord
deriving Repr

/-- WHERE clause of the guarded UPDATE in safelyTransitionToProcessing:
id matches and status is uploading, failed, or processing with
progress at most 10. -/
def stpCond (id : String) (r : VideoRecord) : Prop :=
  r.id = id ∧ (r.status = Status.uploading ∨ r.status = Status.failed ∨
    (r.status = Status.processing ∧ r.progress ≤ 10))

instance (id : String) (r : VideoRecord) : Decidable (stpCond id r) := by
  unfold stpCond; infer_instance

/-- safelyTransitionToProcessing in videoStore.ts: refuse when the
record is absent, completed, or processing with progress above 10;
otherwise run the guarded UPDATE setting status processing, progress 10
and report whether any row changed. -/
def safelyTransitionToProcessing (s : Store) (id : String) : TransitionOutcome :=
  match getVideoRecord s id with
  | none => ⟨s, false, none⟩
  | some cur =>
      if cur.status = Status.completed then ⟨s, false, some cur⟩
      else if cur.status = Status.processing ∧ cur.progress > 10 then ⟨s, false, some cur⟩
      else
        let s' := s.map fun r =>
          if stpCond id r then { r with status := Status.processing, progress := 10 } else r
        let changes := s.countP fun r => decide (stpCond id r)
        if changes > 0 then ⟨s', true, getVideoRecord s' id⟩
        else ⟨s', false, getVideoRecord s' id⟩

/-- Relation ordering records newest-first by creation time. -/
def newerEq (a b : VideoRecord) : Prop := b.createdAt ≤ a.createdAt

/-- Relation ordering records oldest-first by creation time. -/
def olderEq (a b : VideoRecord) : Prop := a.createdAt ≤ b.createdAt

instance : DecidableRel newerEq := fun a b => Nat.decLe b.createdAt a.createdAt

instance : DecidableRel olderEq := fun a b => Nat.decLe a.createdAt b.createdAt

instance : IsTotal VideoRecord newerEq :=
  ⟨fun a b => (Nat.le_total b.createdAt a.createdAt).elim Or.inl Or.inr⟩

instance : IsTrans VideoRecord newerEq :=
  ⟨fun _ _ _ h1 h2 => Nat.le_trans h2 h1⟩

instance : IsTotal VideoRecord olderEq :=
  ⟨fun a b => (Nat.le_total a.createdAt b.createdAt).elim Or.inl Or.inr⟩

instance : IsTrans VideoRecord olderEq :=
  ⟨fun _ _ _ h1 h2 => Nat.le_trans h1 h2⟩

/-- SELECT * FROM videos ORDER BY createdAt DESC (getAllVideos in
videoStore.ts). -/
def getAllVideos (s : Store) : List VideoRecord :=
  List.insertionSort newerEq s

/-- WHERE clause of getVideosWithPendingCallbacks: callbackUrl IS NOT
NULL, callbackStatus = pending, callbackRetryCount < 4,
status = completed. -/
def pendingPred (r : VideoRecord) : Prop :=
  r.callbackUrl ≠ none ∧ r.callbackStatus = CallbackStatus.pending ∧
    r.callbackRetryCount < 4 ∧ r.status = Status.completed

instance (r : VideoRecord) : Decidable (pendingPred r) := by
  unfold pendingPred; infer_instance

/-- getVideosWithPendingCallbacks in videoStore.ts: the filtered rows
ordered oldest-first by createdAt. -/
def getVideosWithPendingCallbacks (s : Store) : List VideoRecord :=
  List.insertionSort olderEq (s.filter fun r => decide (pendingPred r))

/-! ## Upload-protocol hooks (tusServer.ts) -/

/-- The upload object handed to the hooks by the upload-protocol
library: id, on-disk storage path, client-supplied metadata. -/
structure TusUpload where
  id : String
  storagePath : Option String
  metaFilename : Option String
  metaPackager : Option String
  metaCallbackUrl : Option String
deriving DecidableEq, Repr

/-- A message on the video_processing queue (VideoProcessingMessage in
videoProcessor.ts). -/
structure VideoJob where
  uploadId : String
  filePath : Option String
  filename : Option String
  packager : String
  callbackUrl : Option String
  s3Path : Option String
deriving DecidableEq, Repr

/-- JavaScript `v || d` on an optional string: undefined and the empty
string fall back to the default. -/
def jsOr (o : Option String) (d : String) : String :=
  match o with
  | some v => if v = "" then d else v
  | none => d

/-- JavaScript truthiness of an optional string value. -/
def jsStrTruthy (o : Option String) : Bool :=
  match o with
  | some v => v ≠ ""
  | none => false

/-- onUploadFinish in tusServer.ts: unconditionally set
status processing / progress 0 on the record and publish one transcoding
job built from the upload's storage path and metadata. -/
def onUploadFinish (now : Nat) (s : Store) (q : List VideoJob) (u : TusUpload) :
    Store × List VideoJob :=
  let s' := (updateVideoRecord now s u.id
    { status := some Status.processing, progress := some 0 }).1
  let job : VideoJob :=
    { uploadId := u.id
      filePath := u.storagePath
      filename := u.metaFilename
      packager := jsOr u.metaPackager "ffmpeg"
      callbackUrl := u.metaCallbackUrl
      s3Path := none }
  (s', q ++ [job])

/-- onUploadCreate in tusServer.ts: set status uploading on the record
(no-op when the id is unknown) and return success; no validation is
performed and no error is ever produced. -/
def onUploadCreate (now : Nat) (s : Store) (u : TusUpload) :
    Store × Except String Unit :=
  ((updateVideoRecord now s u.id { status := some Status.uploading }).1, Except.ok ())

/-! ## Transcode and storage upload (upload-utils.ts) -/

/-- `s3Path.replace` with the regex anchored at start and end: strip one
leading and one trailing slash. -/
def stripWrapSlashes (p : String) : String :=
  let p1 := if p.startsWith "/" then p.drop 1 else p
  if p1.endsWith "/" then p1.dropRight 1 else p1

/-- Key base used for storage uploads: custom path (slashes stripped)
joined with the name, or just the name. -/
def keyBaseFor (name : String) (s3Path : Option String) : String :=
  match s3Path with
  | some p => stripWrapSlashes p ++ "/" ++ name
  | none => name

/-- Manifest URL returned by transcodeAndUpload:
BUCKET_NAME . S3_ENDPOINT / keyBase / index.m3u8. -/
def streamUrlFor (bucket endpoint name : String) (s3Path : Option String) : String :=
  bucket ++ "." ++ endpoint ++ "/" ++ keyBaseFor name s3Path ++ "/index.m3u8"

/-- Outcome of the external collaborators during one transcodeAndUpload
run: the transcode/thumbnail/manifest step fails, the storage upload
throws (with the message of the exception when it is an Error), or
everything succeeds. -/
inductive TrEnv
  | transcodeFail
  | uploadFail (msg : Option String)
  | ok
deriving DecidableEq, Repr

/-- The message the worker's catch block will see for a failing run:
the fixed transcode failure message, or the storage exception. -/
def TrEnv.failMsg : TrEnv → Option (Option String)
  | TrEnv.transcodeFail => some (some "Failed to transcode video with FFmpeg")
  | TrEnv.uploadFail m => some m
  | TrEnv.ok => none

/-- `if (uploadId) updateVideoRecord(uploadId, { progress })` — the
guarded progress writes inside transcodeAndUpload (JS truthiness of the
string uploadId). -/
def progUpd (now : Nat) (s : Store) (uploadId : String) (p : Nat) : Store :=
  if uploadId = "" then s
  else (updateVideoRecord now s uploadId { progress := some p }).1

/-- transcodeAndUpload in upload-utils.ts, with the external transcode,
thumbnail and storage collaborators abstracted into TrEnv.  Progress is
written at 25, 60, 75, 80 and 95; a transcode failure is re-thrown with
a fixed message; a storage failure propagates its own exception; success
returns the manifest URL. -/
def transcodeAndUpload (now : Nat) (bucket endpoint : String) (s : Store)
    (uploadId : String) (s3Path : Option String) (env : TrEnv) :
    Store × Except (Option String) String :=
  let s1 := progUpd now s uploadId 25
  match env with
  | TrEnv.transcodeFail =>
      (s1, Except.error (some "Failed to transcode video with FFmpeg"))
  | TrEnv.uploadFail msg =>
      let s2 := progUpd now s1 uploadId 60
      let s3 := progUpd now s2 uploadId 75
      let s4 := progUpd now s3 uploadId 80
      (s4, Except.error msg)
  | TrEnv.ok =>
      let s2 := progUpd now s1 uploadId 60
      let s3 := progUpd now s2 uploadId 75
      let s4 := progUpd now s3 uploadId 80
      let s5 := progUpd now s4 uploadId 95
      (s5, Except.ok (streamUrlFor bucket endpoint uploadId s3Path))

/-! ## Transcoding worker (videoProcessor.ts) -/

/-- One consumed queue message: either unparseable JSON or a parsed
job. -/
inductive QueueMsg
  | malformed
  | parsed (job : VideoJob)
deriving Repr

/-- Outcome of one webhook POST. -/
inductive HttpOutcome
  | ok200
  | nonSuccess (code : Nat)
  | netError
deriving DecidableEq, Repr

/-- Result of handling one queue message: the store, whether the message
was acknowledged, and the callback URLs POSTed. -/
structure WorkerResult where
  store : Store
  acked : Bool
  posts : List String
deriving Repr

/-- The worker's immediate webhook attempt, shared by the success and
failure paths of videoProcessor.ts: guarded by
`if (job.callbackUrl && updatedRecord)`; a 200 response marks
callbackStatus completed, anything else sets callbackRetryCount to 1;
both stamp callbackLastAttempt. -/
def webhookAttempt (now : Nat) (s : Store) (job : VideoJob)
    (updated : Option VideoRecord) (cb : HttpOutcome) : Store × List String :=
  if jsStrTruthy job.callbackUrl && updated.isSome then
    match cb with
    | HttpOutcome.ok200 =>
        ((updateVideoRecord now s job.uploadId
          { callbackStatus := some CallbackStatus.completed
            callbackLastAttempt := some now }).1,
         [job.callbackUrl.getD ""])
    | _ =>
        ((updateVideoRecord now s job.uploadId
          { callbackRetryCount := some 1
            callbackLastAttempt := some now }).1,
         [job.callbackUrl.getD ""])
  else (s, [])

/-- The consume handler of startVideoProcessingWorker: a malformed
payload is logged and acknowledged; otherwise status processing /
progress 10 is written, transcodeAndUpload runs, the terminal status is
recorded (completed with stream URL, or failed with the exception
message, defaulting to "Processing failed" for a non-Error throw),
cleanup runs (no store effect), the immediate webhook attempt fires,
and the message is acknowledged in every path. -/
def processMessage (now : Nat) (bucket endpoint : String) (s : Store)
    (msg : QueueMsg) (env : TrEnv) (cb : HttpOutcome) : WorkerResult :=
  match msg with
  | QueueMsg.malformed => ⟨s, true, []⟩
  | QueueMsg.parsed job =>
      let s1 := (updateVideoRecord now s job.uploadId
        { status := some Status.processing, progress := some 10 }).1
      match transcodeAndUpload now bucket endpoint s1 job.uploadId job.s3Path env with
      | (s2, Except.ok url) =>
          let upd := updateVideoRecord now s2 job.uploadId
            { status := some Status.completed, progress := some 100
              streamUrl := some url }
          let att := webhookAttempt now upd.1 job upd.2 cb
          ⟨att.1, true, att.2⟩
      | (s2, Except.error em) =>
          let upd := updateVideoRecord now s2 job.uploadId
            { status := some Status.failed
              error := some (em.getD "Processing failed") }
          let att := webhookAttempt now upd.1 job upd.2 cb
          ⟨att.1, true, att.2⟩

/-! ## Callback cron sweep (CallbackCronService in tusServer.ts) -/

/-- handleCallbackFailure: increment the retry count read from the
candidate; at 4 or more also freeze callbackStatus at failed. -/
def handleCallbackFailure (now : Nat) (s : Store) (v : VideoRecord) : Store :=
  let n := v.callbackRetryCount + 1
  if 4 ≤ n then
    (updateVideoRecord now s v.id
      { callbackStatus := some CallbackStatus.failed
        callbackRetryCount := some n
        callbackLastAttempt := some now }).1
  else
    (updateVideoRecord now s v.id
      { callbackRetryCount := some n
        callbackLastAttempt := some now }).1

/-- processVideoCallback: skip a candidate without a callbackUrl; POST,
then on 200 mark callbackStatus completed (stamping the attempt time),
otherwise hand over to handleCallbackFailure. -/
def processVideoCallback (now : Nat) (s : Store) (v : VideoRecord)
    (outcome : HttpOutcome) : Store :=
  if jsStrTruthy v.callbackUrl = false then s
  else
    match outcome with
    | HttpOutcome.ok200 =>
        (updateVideoRecord now s v.id
          { callbackStatus := some CallbackStatus.completed
            callbackLastAttempt := some now }).1
    | _ => handleCallbackFailure now s v

/-- One sweep cycle (processCallbacks): fetch the pending candidates
once, then attempt each sequentially; returns the store and the ids for
which a POST was made. -/
def processCallbacks (now : Nat) (s : Store) (outcomes : String → HttpOutcome) :
    Store × List String :=
  let pend := getVideosWithPendingCallbacks s
  (pend.foldl (fun acc v => processVideoCallback now acc v (outcomes v.id)) s,
   (pend.filter fun v => jsStrTruthy v.callbackUrl).map fun v => v.id)

/-- A sequence of sweep cycles, each with its own clock value and HTTP
outcomes; accumulates every id attempted. -/
def runSweeps : Store → List (Nat × (String → HttpOutcome)) → Store × List String
  | s, [] => (s, [])
  | s, (now, oc) :: rest =>
      let step := processCallbacks now s oc
      let tail := runSweeps step.1 rest
      (tail.1, step.2 ++ tail.2)

/-! ## Bearer auth and the exposed endpoints (auth.ts, router) -/

/-- Reasons authenticateBearer responds 401. -/
inductive AuthError
  | missingHeader
  | badScheme
  | emptyToken
  | invalidKey
deriving DecidableEq, Repr

/-- authenticateBearer in auth.ts: require an Authorization header of
the shape Bearer token with a non-empty token equal to the API key. -/
def authenticateBearer (apiKey : String) (authHeader : Option String) :
    Option AuthError :=
  match authHeader with
  | none => some AuthError.missingHeader
  | some h =>
      if ¬ h.startsWith "Bearer " then some AuthError.badScheme
      else
        let token := h.drop 7
        if token = "" then some AuthError.emptyToken
        else if token ≠ apiKey then some AuthError.invalidKey
        else none

/-- The bearer token a request presents, if its header is well-formed. -/
def presentedToken (authHeader : Option String) : Option String :=
  match authHeader with
  | none => none
  | some h => if h.startsWith "Bearer " then some (h.drop 7) else none

/-- The four exposed endpoints of the authenticated router. -/
inductive Endpoint
  | createUpload (filename : Option String) (filesize : Option Nat)
      (packager : Option String) (callbackUrl : Option String)
  | getStatus (uploadId : String)
  | callbackStatus (uploadId : String)
  | listAll
deriving Repr

/-- Response classification of the exposed endpoints. -/
inductive ApiResult
  | unauthorized (e : AuthError)
  | badRequest
  | notFound
  | okJson
  | serverError
deriving DecidableEq, Repr

/-- createVideoRecord in videoStore.ts as called by the create-session
controller: defaults merged with the supplied fields, then INSERT.  A
duplicate id violates the PRIMARY KEY and throws. -/
def insertRecord (s : Store) (r : VideoRecord) : Option Store :=
  if s.any fun x => x.id = r.id then none else some (s ++ [dbRow r])

/-- createVideoUpload in the video controller: reject a missing (or
falsy) filename or filesize, otherwise create the uploading record and
answer with the session data. -/
def createVideoUpload (now : Nat) (freshId : String) (s : Store)
    (filename : Option String) (filesize : Option Nat)
    (packager : Option String) (callbackUrl : Option String) : Store × ApiResult :=
  let fnBad := !(jsStrTruthy filename)
  let fsBad := match filesize with
    | none => true
    | some n => decide (n = 0)
  if fnBad || fsBad then (s, ApiResult.badRequest)
  else
    let rec0 : VideoRecord :=
      { id := freshId
        filename := filename.getD ""
        status := Status.uploading
        progress := 0
        streamUrl := none
        thumbnailUrl := none
        createdAt := now
        completedAt := none
        error := none
        packager := some (packager.getD "ffmpeg")
        callbackUrl := callbackUrl
        callbackStatus := CallbackStatus.pending
        callbackRetryCount := 0
        callbackLastAttempt := none
        s3Path := none }
    match insertRecord s rec0 with
    | none => (s, ApiResult.serverError)
    | some s' => (s', ApiResult.okJson)

/-- The authenticated router (router.use(authenticateBearer) followed by
the four routes): an auth failure answers 401 before any handler runs;
otherwise dispatch. -/
def routerHandle (apiKey : String) (now : Nat) (freshId : String) (s : Store)
    (authHeader : Option String) (ep : Endpoint) : Store × ApiResult :=
  match authenticateBearer apiKey authHeader with
  | some e => (s, ApiResult.unauthorized e)
  | none =>
      match ep with
      | Endpoint.createUpload fn fsz pk cb => createVideoUpload now freshId s fn fsz pk cb
      | Endpoint.getStatus uid =>
          (s, match getVideoRecord s uid with
              | none => ApiResult.notFound
              | some _ => ApiResult.okJson)
      | Endpoint.callbackStatus uid =>
          (s, match getVideoRecord s uid with
              | none => ApiResult.notFound
              | some _ => ApiResult.okJson)
      | Endpoint.listAll => (s, ApiResult.okJson)

/-! ## Store lemmas -/

theorem getVideoRecord_nil (id : String) : getVideoRecord [] id = none := rfl

theorem getVideoRecord_cons (x : VideoRecord) (l : Store) (id : String) :
    getVideoRecord (x :: l) id =
      if x.id = id then some x else getVideoRecord l id := rfl

theorem updateStore_nil (id : String) (m : VideoRecord) :
    updateStore [] id m = [] := rfl

theorem updateStore_cons (a : VideoRecord) (l : Store) (id : String) (m : VideoRecord) :
    updateStore (a :: l) id m =
      (if a.id = id then dbRow (applyRow m a) else a) :: updateStore l id m := by
  unfold updateStore
  simp only [List.map_cons]

theorem dbRow_id (r : VideoRecord) : (dbRow r).id = r.id := rfl

theorem applyRow_id (m x : VideoRecord) : (applyRow m x).id = x.id := rfl

theorem afterUpd_id (now : Nat) (u : RecordUpdates) (x : VideoRecord) :
    (afterUpd now u x).id = x.id := by
  unfold afterUpd dbRow applyRow applyUpdates
  split <;> rfl

theorem afterUpd_createdAt (now : Nat) (u : RecordUpdates) (x : VideoRecord) :
    (afterUpd now u x).createdAt = x.createdAt := by
  unfold afterUpd dbRow applyRow applyUpdates
  split <;> rfl

theorem afterUpd_status (now : Nat) (u : RecordUpdates) (x : VideoRecord) :
    (afterUpd now u x).status = u.status.getD x.status := by
  unfold afterUpd dbRow applyRow applyUpdates
  split <;> rfl

theorem afterUpd_progress (now : Nat) (u : RecordUpdates) (x : VideoRecord) :
    (afterUpd now u x).progress = u.progress.getD x.progress := by
  unfold afterUpd dbRow applyRow applyUpdates
  split <;> rfl

theorem afterUpd_streamUrl (now : Nat) (u : RecordUpdates) (x : VideoRecord) :
    (afterUpd now u x).streamUrl = nz (keep u.streamUrl x.streamUrl) := by
  unfold afterUpd dbRow applyRow applyUpdates
  split <;> rfl

theorem afterUpd_error (now : Nat) (u : RecordUpdates) (x : VideoRecord) :
    (afterUpd now u x).error = nz (keep u.error x.error) := by
  unfold afterUpd dbRow applyRow applyUpdates
  split <;> rfl

theorem afterUpd_completedAt (now : Nat) (u : RecordUpdates) (x : VideoRecord) :
    (afterUpd now u x).completedAt =
      (if u.status = some Status.completed then some now
       else keep u.completedAt x.completedAt) := by
  unfold afterUpd dbRow applyRow applyUpdates
  split <;> simp_all

theorem afterUpd_callbackStatus (now : Nat) (u : RecordUpdates) (x : VideoRecord) :
    (afterUpd now u x).callbackStatus = u.callbackStatus.getD x.callbackStatus := by
  unfold afterUpd dbRow applyRow applyUpdates
  split <;> rfl

theorem afterUpd_callbackRetryCount (now : Nat) (u : RecordUpdates) (x : VideoRecord) :
    (afterUpd now u x).callbackRetryCount =
      u.callbackRetryCount.getD x.callbackRetryCount := by
  unfold afterUpd dbRow applyRow applyUpdates
  split <;> rfl

theorem afterUpd_callbackLastAttempt (now : Nat) (u : RecordUpdates) (x : VideoRecord) :
    (afterUpd now u x).callbackLastAttempt =
      keep u.callbackLastAttempt x.callbackLastAttempt := by
  unfold afterUpd dbRow applyRow applyUpdates
  split <;> rfl

theorem nz_of_ne_empty {v : String} (h : v ≠ "") : nz (some v) = some v := by
  simp [nz, h]

theorem nz_idem (v : Option String) : nz (nz v) = nz v := by
  by_cases h : v = some "" <;> simp [nz, h]

theorem getVideoRecord_mem {s : Store} {id : String} {r : VideoRecord}
    (h : getVideoRecord s id = some r) : r ∈ s ∧ r.id = id := by
  induction s with
  | nil => simp [getVideoRecord] at h
  | cons a rest ih =>
      rw [getVideoRecord_cons] at h
      by_cases ha : a.id = id
      · rw [if_pos ha] at h
        have heq : a = r := by injection h
        subst heq
        exact ⟨List.mem_cons_self a rest, ha⟩
      · rw [if_neg ha] at h
        rcases ih h with ⟨hm, hid⟩
        exact ⟨List.mem_cons_of_mem a hm, hid⟩

theorem getVideoRecord_updateStore_same {s : Store} {id : String} {x : VideoRecord}
    (m : VideoRecord) (h : getVideoRecord s id = some x) :
    getVideoRecord (updateStore s id m) id = some (dbRow (applyRow m x)) := by
  induction s with
  | nil => simp [getVideoRecord] at h
  | cons a rest ih =>
      rw [getVideoRecord_cons] at h
      by_cases ha : a.id = id
      · rw [if_pos ha] at h
        cases h
        rw [updateStore_cons, if_pos ha, getVideoRecord_cons,
          if_pos (by rw [dbRow_id, applyRow_id]; exact ha)]
      · rw [if_neg ha] at h
        rw [updateStore_cons, if_neg ha, getVideoRecord_cons, if_neg ha]
        exact ih h

theorem getVideoRecord_updateStore_ne {s : Store} {id id' : String}
    (m : VideoRecord) (h : id' ≠ id) :
    getVideoRecord (updateStore s id m) id' = getVideoRecord s id' := by
  induction s with
  | nil => rfl
  | cons a rest ih =>
      by_cases ha : a.id = id
      · have hne : a.id ≠ id' := fun hc => h (hc ▸ ha)
        rw [updateStore_cons, if_pos ha, getVideoRecord_cons,
          if_neg (by rw [dbRow_id, applyRow_id]; exact hne),
          getVideoRecord_cons, if_neg hne, ih]
      · by_cases ha' : a.id = id'
        · rw [updateStore_cons, if_neg ha, getVideoRecord_cons, if_pos ha',
            getVideoRecord_cons, if_pos ha']
        · rw [updateStore_cons, if_neg ha, getVideoRecord_cons, if_neg ha',
            getVideoRecord_cons, if_neg ha', ih]

theorem updateStore_ids (s : Store) (id : String) (m : VideoRecord) :
    (updateStore s id m).map VideoRecord.id = s.map VideoRecord.id := by
  induction s with
  | nil => rfl
  | cons a rest ih =>
      rw [updateStore_cons, List.map_cons, List.map_cons, ih]
      by_cases ha : a.id = id
      · rw [if_pos ha, dbRow_id, applyRow_id]
      · rw [if_neg ha]

theorem upd_get_same (now : Nat) (s : Store) (id : String) (u : RecordUpdates) :
    getVideoRecord (updateVideoRecord now s id u).1 id =
      (getVideoRecord s id).map (afterUpd now u) := by
  cases h : getVideoRecord s id with
  | none => simp [updateVideoRecord, h]
  | some x =>
      simp only [updateVideoRecord, h, Option.map_some']
      exact getVideoRecord_updateStore_same _ h

theorem upd_get_ne (now : Nat) (s : Store) {id id' : String} (u : RecordUpdates)
    (h : id' ≠ id) :
    getVideoRecord (updateVideoRecord now s id u).1 id' = getVideoRecord s id' := by
  cases hg : getVideoRecord s id with
  | none => simp [updateVideoRecord, hg]
  | some x =>
      simp only [updateVideoRecord, hg]
      exact getVideoRecord_updateStore_ne _ h

theorem upd_ids (now : Nat) (s : Store) (id : String) (u : RecordUpdates) :
    ((updateVideoRecord now s id u).1).map VideoRecord.id = s.map VideoRecord.id := by
  cases hg : getVideoRecord s id with
  | none => simp [updateVideoRecord, hg]
  | some x =>
      simp only [updateVideoRecord, hg]
      exact updateStore_ids _ _ _

theorem upd_snd_isSome (now : Nat) (s : Store) (id : String) (u : RecordUpdates) :
    ((updateVideoRecord now s id u).2).isSome = (getVideoRecord s id).isSome := by
  cases hg : getVideoRecord s id <;> simp [updateVideoRecord, hg]

/-! ## Sweep lemmas -/

theorem hcf_get_ne (now : Nat) (s : Store) (v : VideoRecord) {id : String}
    (h : id ≠ v.id) :
    getVideoRecord (handleCallbackFailure now s v) id = getVideoRecord s id := by
  unfold handleCallbackFailure
  by_cases h4 : 4 ≤ v.callbackRetryCount + 1
  · simp only [if_pos h4]
    exact upd_get_ne _ _ _ h
  · simp only [if_neg h4]
    exact upd_get_ne _ _ _ h

theorem hcf_ids (now : Nat) (s : Store) (v : VideoRecord) :
    (handleCallbackFailure now s v).map VideoRecord.id = s.map VideoRecord.id := by
  unfold handleCallbackFailure
  by_cases h4 : 4 ≤ v.callbackRetryCount + 1
  · simp only [if_pos h4]
    exact upd_ids _ _ _ _
  · simp only [if_neg h4]
    exact upd_ids _ _ _ _

theorem pvc_get_ne (now : Nat) (s : Store) (v : VideoRecord) (oc : HttpOutcome)
    {id : String} (h : id ≠ v.id) :
    getVideoRecord (processVideoCallback now s v oc) id = getVideoRecord s id := by
  unfold processVideoCallback
  by_cases hj : jsStrTruthy v.callbackUrl = false
  · rw [if_pos hj]
  · rw [if_neg hj]
    cases oc with
    | ok200 => exact upd_get_ne _ _ _ h
    | nonSuccess code => exact hcf_get_ne _ _ _ h
    | netError => exact hcf_get_ne _ _ _ h

theorem pvc_ids (now : Nat) (s : Store) (v : VideoRecord) (oc : HttpOutcome) :
    (processVideoCallback now s v oc).map VideoRecord.id = s.map VideoRecord.id := by
  unfold processVideoCallback
  by_cases hj : jsStrTruthy v.callbackUrl = false
  · rw [if_pos hj]
  · rw [if_neg hj]
    cases oc with
    | ok200 => exact upd_ids _ _ _ _
    | nonSuccess code => exact hcf_ids _ _ _
    | netError => exact hcf_ids _ _ _

theorem foldl_pvc_get_ne (now : Nat) (oc : String → HttpOutcome) :
    ∀ (l : List VideoRecord) (s : Store) (id : String), (∀ v ∈ l, v.id ≠ id) →
      getVideoRecord
        (l.foldl (fun acc v => processVideoCallback now acc v (oc v.id)) s) id =
      getVideoRecord s id := by
  intro l
  induction l with
  | nil => intro s id _; rfl
  | cons a rest ih =>
      intro s id h
      rw [List.foldl_cons,
        ih _ _ (fun v hv => h v (List.mem_cons_of_mem _ hv)),
        pvc_get_ne _ _ _ _ (Ne.symm (h a (List.mem_cons_self a rest)))]

theorem foldl_pvc_ids (now : Nat) (oc : String → HttpOutcome) :
    ∀ (l : List VideoRecord) (s : Store),
      (l.foldl (fun acc v => processVideoCallback now acc v (oc v.id)) s).map
        VideoRecord.id = s.map VideoRecord.id := by
  intro l
  induction l with
  | nil => intro s; rfl
  | cons a rest ih =>
      intro s
      rw [List.foldl_cons, ih, pvc_ids]

theorem pend_mem {s : Store} {v : VideoRecord}
    (h : v ∈ getVideosWithPendingCallbacks s) : v ∈ s ∧ pendingPred v := by
  unfold getVideosWithPendingCallbacks at h
  have h2 := (List.perm_insertionSort olderEq _).mem_iff.mp h
  rw [List.mem_filter] at h2
  exact ⟨h2.1, of_decide_eq_true h2.2⟩

theorem sweeps_skip :
    ∀ (sw : List (Nat × (String → HttpOutcome))) (s : Store) (id : String)
      (r : VideoRecord),
      (s.map VideoRecord.id).Nodup → getVideoRecord s id = some r →
      ¬ pendingPred r →
      getVideoRecord (runSweeps s sw).1 id = some r ∧ id ∉ (runSweeps s sw).2 := by
  intro sw
  induction sw with
  | nil =>
      intro s id r _ hg _
      exact ⟨hg, by simp [runSweeps]⟩
  | cons hd tl ih =>
      intro s id r hnd hg hnp
      obtain ⟨now, oc⟩ := hd
      have havoid : ∀ v ∈ getVideosWithPendingCallbacks s, v.id ≠ id := by
        intro v hv hc
        rcases pend_mem hv with ⟨hvs, hvp⟩
        rcases getVideoRecord_mem hg with ⟨hrs, hrid⟩
        have hvr : v = r := List.inj_on_of_nodup_map hnd hvs hrs (by rw [hc, hrid])
        exact hnp (hvr ▸ hvp)
      have hstep_get : getVideoRecord (processCallbacks now s oc).1 id =
          getVideoRecord s id := by
        unfold processCallbacks
        exact foldl_pvc_get_ne now oc _ s id havoid
      have hstep_ids : ((processCallbacks now s oc).1).map VideoRecord.id =
          s.map VideoRecord.id := by
        unfold processCallbacks
        exact foldl_pvc_ids now oc _ s
      have hstep_att : id ∉ (processCallbacks now s oc).2 := by
        unfold processCallbacks
        intro hc
        rw [List.mem_map] at hc
        rcases hc with ⟨v, hvf, hvid⟩
        exact havoid v (List.mem_of_mem_filter hvf) hvid
      have ihres := ih (processCallbacks now s oc).1 id r
        (by rw [hstep_ids]; exact hnd) (by rw [hstep_get]; exact hg) hnp
      refine ⟨?_, ?_⟩
      · show getVideoRecord (runSweeps s ((now, oc) :: tl)).1 id = some r
        simp only [runSweeps]
        exact ihres.1
      · show id ∉ (runSweeps s ((now, oc) :: tl)).2
        simp only [runSweeps, List.mem_append]
        rintro (h1 | h2)
        · exact hstep_att h1
        · exact ihres.2 h2

/-! ## Demo records for concrete evaluations -/

/-- A freshly created record, as the session controller stores it. -/
def baseRec : VideoRecord :=
  { id := "a"
    filename := "f.mp4"
    status := Status.uploading
    progress := 0
    streamUrl := none
    thumbnailUrl := none
    createdAt := 0
    completedAt := none
    error := none
    packager := none
    callbackUrl := none
    callbackStatus := CallbackStatus.pending
    callbackRetryCount := 0
    callbackLastAttempt := none
    s3Path := none }

/-! ## Claims -/

/-- Claim C9: getAllVideos returns all records ordered newest-first by
creation time, and getVideosWithPendingCallbacks returns exactly the
records with callbackUrl set, callbackStatus pending,
callbackRetryCount below 4 and status completed, ordered oldest-first
by creation time. -/
theorem c9_store_queries :
    (∀ s : Store,
      List.Perm (getAllVideos s) s ∧ List.Sorted newerEq (getAllVideos s)) ∧
    (∀ (s : Store) (v : VideoRecord),
      v ∈ getVideosWithPendingCallbacks s ↔
        v ∈ s ∧ v.callbackUrl ≠ none ∧
          v.callbackStatus = CallbackStatus.pending ∧
          v.callbackRetryCount < 4 ∧ v.status = Status.completed) ∧
    (∀ s : Store, List.Sorted olderEq (getVideosWithPendingCallbacks s)) := by
  refine ⟨fun s => ⟨List.perm_insertionSort _ s, List.sorted_insertionSort _ s⟩,
    ?_, fun s => List.sorted_insertionSort _ _⟩
  intro s v
  constructor
  · intro h
    rcases pend_mem h with ⟨h1, h2⟩
    exact ⟨h1, h2.1, h2.2.1, h2.2.2.1, h2.2.2.2⟩
  · rintro ⟨h1, h2, h3, h4, h5⟩
    unfold getVideosWithPendingCallbacks
    refine (List.perm_insertionSort olderEq _).mem_iff.mpr ?_
    rw [List.mem_filter]
    exact ⟨h1, decide_eq_true (show pendingPred v from ⟨h2, h3, h4, h5⟩)⟩

/-- Record with status failed, used to exhibit the failed-to-processing
transition of safelyTransitionToProcessing. -/
def c3FailedRec : VideoRecord := { baseRec with status := Status.failed }

/-- Claim C3 (counterexample): a record whose status is failed is moved
to processing by safelyTransitionToProcessing, so the claimed DAG
(which forbids failed to processing) does not hold. -/
theorem c3_counterexample_failed_to_processing :
    ((getVideoRecord [c3FailedRec] "a").map VideoRecord.status) =
      some Status.failed ∧
    (safelyTransitionToProcessing [c3FailedRec] "a").success = true ∧
    ((safelyTransitionToProcessing [c3FailedRec] "a").record.map
      VideoRecord.status) = some Status.processing := by
  refine ⟨rfl, ?_, ?_⟩ <;> rfl

theorem getVideoRecord_stpMap {s : Store} {id : String} {r : VideoRecord}
    (hg : getVideoRecord s id = some r) :
    getVideoRecord
      (s.map fun x => if stpCond id x then
        { x with status := Status.processing, progress := 10 } else x) id =
      some (if stpCond id r then
        { r with status := Status.processing, progress := 10 } else r) := by
  induction s with
  | nil => simp [getVideoRecord] at hg
  | cons a rest ih =>
      rw [getVideoRecord_cons] at hg
      have hid : ∀ x : VideoRecord,
          ((if stpCond id x then
            { x with status := Status.processing, progress := 10 } else x)).id =
            x.id := by
        intro x; split <;> rfl
      by_cases ha : a.id = id
      · rw [if_pos ha] at hg
        have heq : a = r := by injection hg
        subst heq
        rw [List.map_cons, getVideoRecord_cons, if_pos ((hid a).trans ha)]
      · rw [if_neg ha] at hg
        rw [List.map_cons, getVideoRecord_cons,
          if_neg (fun hc => ha ((hid a).symm.trans hc))]
        exact ih hg

/-- Claim C3 (amended): the only guarded status write is
safelyTransitionToProcessing, and its guard protects only completed
records: a completed record is never changed (failure result, store
untouched); a failed record is transitioned back to processing; and
updateVideoRecord writes any requested status unconditionally. -/
theorem c3_amended_status_writes :
    (∀ (s : Store) (id : String) (r : VideoRecord),
      getVideoRecord s id = some r → r.status = Status.completed →
      safelyTransitionToProcessing s id = ⟨s, false, some r⟩) ∧
    (∀ (s : Store) (id : String) (r : VideoRecord),
      getVideoRecord s id = some r → r.status = Status.failed →
      (safelyTransitionToProcessing s id).success = true ∧
      ((safelyTransitionToProcessing s id).record.map VideoRecord.status) =
        some Status.processing) ∧
    (∀ (now : Nat) (s : Store) (id : String) (u : RecordUpdates) (st : Status)
      (r : VideoRecord),
      getVideoRecord s id = some r → u.status = some st →
      ((getVideoRecord (updateVideoRecord now s id u).1 id).map
        VideoRecord.status) = some st) := by
  refine ⟨?_, ?_, ?_⟩
  · intro s id r hg hst
    simp [safelyTransitionToProcessing, hg, hst]
  · intro s id r hg hst
    have hcond : stpCond id r :=
      ⟨(getVideoRecord_mem hg).2, Or.inr (Or.inl hst)⟩
    have hchanges : 0 < s.countP fun x => decide (stpCond id x) :=
      List.countP_pos_iff.mpr
        ⟨r, (getVideoRecord_mem hg).1, decide_eq_true hcond⟩
    have hne1 : ¬ r.status = Status.completed := by rw [hst]; intro hc; cases hc
    have hne2 : ¬ (r.status = Status.processing ∧ r.progress > 10) := by
      rw [hst]; rintro ⟨hc, -⟩; cases hc
    rw [safelyTransitionToProcessing, hg]
    simp only [if_neg hne1, if_neg hne2, if_pos hchanges,
      getVideoRecord_stpMap hg, if_pos hcond]
    exact ⟨trivial, rfl⟩
  · intro now s id u st r hg hust
    rw [upd_get_same, hg, Option.map_some', Option.map_some',
      afterUpd_status, hust]
    rfl

/-- Witness for the amended C3 at a concrete store. -/
theorem c3_amended_status_writes_witness :
    safelyTransitionToProcessing [{ baseRec with status := Status.completed }] "a" =
      ⟨[{ baseRec with status := Status.completed }], false,
        some { baseRec with status := Status.completed }⟩ ∧
    (safelyTransitionToProcessing [c3FailedRec] "a").success = true :=
  ⟨c3_amended_status_writes.1 [{ baseRec with status := Status.completed }] "a"
      { baseRec with status := Status.completed } rfl rfl,
    (c3_amended_status_writes.2.1 [c3FailedRec] "a" c3FailedRec rfl rfl).1⟩

/-- Record already in status processing, as after a first finish event. -/
def c1ProcRec : VideoRecord := { baseRec with status := Status.processing }

/-- The upload object for id a handed to the hooks. -/
def c1Upload : TusUpload :=
  { id := "a"
    storagePath := some "/uploads/a"
    metaFilename := some "f.mp4"
    metaPackager := none
    metaCallbackUrl := none }

/-- Claim C1: calling the finish hook twice for the same id while the
record is already processing publishes one job per call, so two jobs in
total for that id; the hook contains no duplicate guard (the guarded
safelyTransitionToProcessing is never invoked), contradicting the
claimed no-op on a duplicate finish. -/
theorem c1_duplicate_finish_two_jobs :
    ((onUploadFinish 2 (onUploadFinish 1 [c1ProcRec] [] c1Upload).1
        (onUploadFinish 1 [c1ProcRec] [] c1Upload).2 c1Upload).2).length = 2 ∧
    ((onUploadFinish 2 (onUploadFinish 1 [c1ProcRec] [] c1Upload).1
        (onUploadFinish 1 [c1ProcRec] [] c1Upload).2 c1Upload).2).countP
      (fun j => j.uploadId == "a") = 2 := by
  refine ⟨rfl, ?_⟩
  rfl

/-- Record already completed, used against the admission hook. -/
def c2CompletedRec : VideoRecord :=
  { baseRec with status := Status.completed, completedAt := some 5 }

/-- The upload object for id a at session open. -/
def c2Upload : TusUpload :=
  { id := "a"
    storagePath := none
    metaFilename := none
    metaPackager := none
    metaCallbackUrl := none }

/-- Claim C2: the session-open hook onUploadCreate performs no
validation: for an id with no record it succeeds (no record-not-found
error) leaving the store unchanged, and for a record whose status is
completed it succeeds (no invalid-state error) and overwrites the
status back to uploading — contradicting the claimed admission gate. -/
theorem c2_admission_gate_not_enforced :
    (onUploadCreate 0 [] c2Upload).2 = Except.ok () ∧
    (onUploadCreate 0 [] c2Upload).1 = [] ∧
    (onUploadCreate 3 [c2CompletedRec] c2Upload).2 = Except.ok () ∧
    ((getVideoRecord (onUploadCreate 3 [c2CompletedRec] c2Upload).1 "a").map
      VideoRecord.status) = some Status.uploading := by
  exact ⟨rfl, rfl, rfl, rfl⟩

/-- Claim C6: every exposed endpoint sits behind the bearer middleware:
a request whose Authorization header is missing, malformed, or carries
a token different from the API key is answered with an unauthorized
error and the store is returned unchanged (no handler runs). -/
theorem c6_auth_required (apiKey : String) (now : Nat) (freshId : String)
    (s : Store) (authHeader : Option String) (ep : Endpoint)
    (h : presentedToken authHeader ≠ some apiKey) :
    ∃ e, routerHandle apiKey now freshId s authHeader ep =
      (s, ApiResult.unauthorized e) := by
  cases authHeader with
  | none => exact ⟨AuthError.missingHeader, rfl⟩
  | some hd =>
      by_cases hb : hd.startsWith "Bearer "
      · by_cases ht : hd.drop 7 = ""
        · refine ⟨AuthError.emptyToken, ?_⟩
          simp [routerHandle, authenticateBearer, hb, ht]
        · have hne : hd.drop 7 ≠ apiKey := by
            intro hc
            apply h
            simp [presentedToken, hb, hc]
          refine ⟨AuthError.invalidKey, ?_⟩
          simp [routerHandle, authenticateBearer, hb, ht, hne]
      · refine ⟨AuthError.badScheme, ?_⟩
        simp [routerHandle, authenticateBearer, hb]

/-- Witness for C6: a request without an Authorization header on the
list endpoint is rejected with the store untouched. -/
theorem c6_auth_required_witness :
    ∃ e, routerHandle "secret" 0 "id1" [baseRec] none Endpoint.listAll =
      ([baseRec], ApiResult.unauthorized e) :=
  c6_auth_required "secret" 0 "id1" [baseRec] none
    Endpoint.listAll (by decide)

/-! ## Worker chain lemmas -/

theorem upd_get_isSome (now : Nat) (s : Store) (id : String) (u : RecordUpdates) :
    (getVideoRecord (updateVideoRecord now s id u).1 id).isSome =
      (getVideoRecord s id).isSome := by
  rw [upd_get_same]
  cases getVideoRecord s id <;> rfl

theorem progUpd_get_isSome (now : Nat) (s : Store) (uid : String) (p : Nat) :
    (getVideoRecord (progUpd now s uid p) uid).isSome =
      (getVideoRecord s uid).isSome := by
  unfold progUpd
  split
  · rfl
  · exact upd_get_isSome _ _ _ _

theorem trans_get_isSome (now : Nat) (b e : String) (s : Store) (uid : String)
    (sp : Option String) (env : TrEnv) :
    (getVideoRecord (transcodeAndUpload now b e s uid sp env).1 uid).isSome =
      (getVideoRecord s uid).isSome := by
  cases env with
  | transcodeFail =>
      simp only [transcodeAndUpload]
      rw [progUpd_get_isSome]
  | uploadFail m =>
      simp only [transcodeAndUpload]
      rw [progUpd_get_isSome, progUpd_get_isSome, progUpd_get_isSome,
        progUpd_get_isSome]
  | ok =>
      simp only [transcodeAndUpload]
      rw [progUpd_get_isSome, progUpd_get_isSome, progUpd_get_isSome,
        progUpd_get_isSome, progUpd_get_isSome]

theorem upd_exists_createdAt (now : Nat) (s : Store) (id : String)
    (u : RecordUpdates) {x : VideoRecord} (h : getVideoRecord s id = some x) :
    ∃ y, getVideoRecord (updateVideoRecord now s id u).1 id = some y ∧
      y.createdAt = x.createdAt :=
  ⟨afterUpd now u x, by rw [upd_get_same, h, Option.map_some'],
    afterUpd_createdAt _ _ _⟩

theorem progUpd_exists_createdAt (now : Nat) (s : Store) (uid : String) (p : Nat)
    {x : VideoRecord} (h : getVideoRecord s uid = some x) :
    ∃ y, getVideoRecord (progUpd now s uid p) uid = some y ∧
      y.createdAt = x.createdAt := by
  unfold progUpd
  split
  · exact ⟨x, h, rfl⟩
  · exact upd_exists_createdAt _ _ _ _ h

theorem trans_exists_createdAt (now : Nat) (b e : String) (s : Store)
    (uid : String) (sp : Option String) (env : TrEnv) {x : VideoRecord}
    (h : getVideoRecord s uid = some x) :
    ∃ y, getVideoRecord (transcodeAndUpload now b e s uid sp env).1 uid = some y ∧
      y.createdAt = x.createdAt := by
  cases env with
  | transcodeFail =>
      simp only [transcodeAndUpload]
      exact progUpd_exists_createdAt _ _ _ _ h
  | uploadFail m =>
      simp only [transcodeAndUpload]
      obtain ⟨y1, h1, e1⟩ := progUpd_exists_createdAt now s uid 25 h
      obtain ⟨y2, h2, e2⟩ := progUpd_exists_createdAt now _ uid 60 h1
      obtain ⟨y3, h3, e3⟩ := progUpd_exists_createdAt now _ uid 75 h2
      obtain ⟨y4, h4, e4⟩ := progUpd_exists_createdAt now _ uid 80 h3
      exact ⟨y4, h4, by rw [e4, e3, e2, e1]⟩
  | ok =>
      simp only [transcodeAndUpload]
      obtain ⟨y1, h1, e1⟩ := progUpd_exists_createdAt now s uid 25 h
      obtain ⟨y2, h2, e2⟩ := progUpd_exists_createdAt now _ uid 60 h1
      obtain ⟨y3, h3, e3⟩ := progUpd_exists_createdAt now _ uid 75 h2
      obtain ⟨y4, h4, e4⟩ := progUpd_exists_createdAt now _ uid 80 h3
      obtain ⟨y5, h5, e5⟩ := progUpd_exists_createdAt now _ uid 95 h4
      exact ⟨y5, h5, by rw [e5, e4, e3, e2, e1]⟩

theorem webhookAttempt_posts_len (now : Nat) (s : Store) (job : VideoJob)
    (updated : Option VideoRecord) (cb : HttpOutcome) :
    ((webhookAttempt now s job updated cb).2).length ≤ 1 := by
  unfold webhookAttempt
  by_cases hcnd : (jsStrTruthy job.callbackUrl && updated.isSome) = true
  · rw [if_pos hcnd]
    cases cb <;> simp
  · rw [if_neg hcnd]
    simp

theorem webhookAttempt_preserves (now : Nat) (s : Store) (job : VideoJob)
    (updated : Option VideoRecord) (cb : HttpOutcome) {y : VideoRecord}
    (hy : getVideoRecord s job.uploadId = some y)
    (hnzS : nz y.streamUrl = y.streamUrl) (hnzE : nz y.error = y.error) :
    ∃ z, getVideoRecord (webhookAttempt now s job updated cb).1 job.uploadId =
        some z ∧
      z.status = y.status ∧ z.progress = y.progress ∧
      z.streamUrl = y.streamUrl ∧ z.error = y.error ∧
      z.completedAt = y.completedAt ∧ z.createdAt = y.createdAt := by
  unfold webhookAttempt
  by_cases hcnd : (jsStrTruthy job.callbackUrl && updated.isSome) = true
  · rw [if_pos hcnd]
    cases cb <;>
      refine ⟨_, by rw [upd_get_same, hy, Option.map_some'], ?_, ?_, ?_, ?_, ?_, ?_⟩ <;>
      simp [afterUpd_status, afterUpd_progress, afterUpd_streamUrl,
        afterUpd_error, afterUpd_completedAt, afterUpd_createdAt, keep,
        hnzS, hnzE]
  · rw [if_neg hcnd]
    exact ⟨y, hy, rfl, rfl, rfl, rfl, rfl, rfl⟩

theorem webhookAttempt_effect (now : Nat) (s : Store) (job : VideoJob)
    (updated : Option VideoRecord) (cb : HttpOutcome) {y : VideoRecord}
    (hy : getVideoRecord s job.uploadId = some y)
    (hj : jsStrTruthy job.callbackUrl = true) (hu : updated.isSome = true) :
    ∃ z, getVideoRecord (webhookAttempt now s job updated cb).1 job.uploadId =
        some z ∧
      (cb = HttpOutcome.ok200 → z.callbackStatus = CallbackStatus.completed ∧
        z.callbackLastAttempt = some now) ∧
      (cb ≠ HttpOutcome.ok200 → z.callbackRetryCount = 1 ∧
        z.callbackLastAttempt = some now) := by
  unfold webhookAttempt
  rw [if_pos (by rw [hj, hu]; rfl)]
  cases cb with
  | ok200 =>
      refine ⟨_, by rw [upd_get_same, hy, Option.map_some'],
        fun _ => ⟨?_, ?_⟩, fun hne => absurd rfl hne⟩
      · rw [afterUpd_callbackStatus]; rfl
      · rw [afterUpd_callbackLastAttempt]; rfl
  | nonSuccess code =>
      refine ⟨_, by rw [upd_get_same, hy, Option.map_some'],
        fun hc => HttpOutcome.noConfusion hc, fun _ => ⟨?_, ?_⟩⟩
      · rw [afterUpd_callbackRetryCount]; rfl
      · rw [afterUpd_callbackLastAttempt]; rfl
  | netError =>
      refine ⟨_, by rw [upd_get_same, hy, Option.map_some'],
        fun hc => HttpOutcome.noConfusion hc, fun _ => ⟨?_, ?_⟩⟩
      · rw [afterUpd_callbackRetryCount]; rfl
      · rw [afterUpd_callbackLastAttempt]; rfl

/-- Claim C4: a failing sweep attempt that brings the retry count to 4
also freezes callbackStatus at failed, and a record whose retry count
has reached 4 (with callbackStatus failed) is never selected again: over
any sequence of later sweep cycles it is left byte-for-byte unchanged
and no delivery attempt (POST) is made for it. -/
theorem c4_retry_cap :
    (∀ (now : Nat) (s : Store) (v r0 : VideoRecord),
      getVideoRecord s v.id = some r0 → 3 ≤ v.callbackRetryCount →
      ∃ r', getVideoRecord (handleCallbackFailure now s v) v.id = some r' ∧
        r'.callbackStatus = CallbackStatus.failed ∧
        r'.callbackRetryCount = v.callbackRetryCount + 1) ∧
    (∀ (s : Store) (id : String) (r : VideoRecord)
      (sw : List (Nat × (String → HttpOutcome))),
      (s.map VideoRecord.id).Nodup → getVideoRecord s id = some r →
      4 ≤ r.callbackRetryCount → r.callbackStatus = CallbackStatus.failed →
      getVideoRecord (runSweeps s sw).1 id = some r ∧
        id ∉ (runSweeps s sw).2) := by
  constructor
  · intro now s v r0 hg h3
    have h4 : 4 ≤ v.callbackRetryCount + 1 := by omega
    unfold handleCallbackFailure
    simp only [if_pos h4]
    refine ⟨_, by rw [upd_get_same, hg, Option.map_some'], ?_, ?_⟩
    · rw [afterUpd_callbackStatus]; rfl
    · rw [afterUpd_callbackRetryCount]; rfl
  · intro s id r sw hnd hg h4 hf
    refine sweeps_skip sw s id r hnd hg ?_
    rintro ⟨-, -, hlt, -⟩
    omega

/-- A completed record whose callback already failed four times. -/
def c4FrozenRec : VideoRecord :=
  { baseRec with
    status := Status.completed
    callbackUrl := some "http://cb.example"
    callbackStatus := CallbackStatus.failed
    callbackRetryCount := 4 }

/-- A completed record with three failed callback attempts so far. -/
def c4PendingRec3 : VideoRecord :=
  { baseRec with
    status := Status.completed
    callbackUrl := some "http://cb.example"
    callbackStatus := CallbackStatus.pending
    callbackRetryCount := 3 }

/-- Witness for C4: the fourth failure freezes the record, and a frozen
record survives a sweep cycle untouched and unattempted. -/
theorem c4_retry_cap_witness :
    (∃ r', getVideoRecord
        (handleCallbackFailure 9 [c4PendingRec3] c4PendingRec3)
        c4PendingRec3.id = some r' ∧
      r'.callbackStatus = CallbackStatus.failed ∧
      r'.callbackRetryCount = c4PendingRec3.callbackRetryCount + 1) ∧
    (getVideoRecord
        (runSweeps [c4FrozenRec] [(10, fun _ => HttpOutcome.ok200)]).1 "a" =
      some c4FrozenRec ∧
      "a" ∉ (runSweeps [c4FrozenRec] [(10, fun _ => HttpOutcome.ok200)]).2) :=
  ⟨c4_retry_cap.1 9 [c4PendingRec3] c4PendingRec3 c4PendingRec3
      (by decide) (by decide),
    c4_retry_cap.2 [c4FrozenRec] "a" c4FrozenRec
      [(10, fun _ => HttpOutcome.ok200)] (by decide) (by decide)
      (by decide) (by decide)⟩

/-- Claim C10: the pending-callbacks query only ever returns records
with status completed (never failed); a record whose status is failed is
untouched and never attempted by any sequence of sweep cycles; and one
worker run performs at most one immediate webhook attempt. -/
theorem c10_failed_jobs_never_swept :
    (∀ (s : Store) (v : VideoRecord),
      v ∈ getVideosWithPendingCallbacks s → v.status = Status.completed) ∧
    (∀ (s : Store) (id : String) (r : VideoRecord)
      (sw : List (Nat × (String → HttpOutcome))),
      (s.map VideoRecord.id).Nodup → getVideoRecord s id = some r →
      r.status = Status.failed →
      getVideoRecord (runSweeps s sw).1 id = some r ∧
        id ∉ (runSweeps s sw).2) ∧
    (∀ (now : Nat) (bucket endpoint : String) (s : Store) (job : VideoJob)
      (env : TrEnv) (cb : HttpOutcome),
      ((processMessage now bucket endpoint s (QueueMsg.parsed job) env
        cb).posts).length ≤ 1) := by
  refine ⟨?_, ?_, ?_⟩
  · intro s v hv
    exact (pend_mem hv).2.2.2.2
  · intro s id r sw hnd hg hf
    refine sweeps_skip sw s id r hnd hg ?_
    rintro ⟨-, -, -, hc⟩
    rw [hf] at hc
    cases hc
  · intro now bucket endpoint s job env cb
    cases env <;>
      simp only [processMessage, transcodeAndUpload] <;>
      exact webhookAttempt_posts_len _ _ _ _ _

/-- A record that ended failed, with a callback URL configured. -/
def c10FailedRec : VideoRecord :=
  { baseRec with
    status := Status.failed
    error := some "Failed to transcode video with FFmpeg"
    callbackUrl := some "http://cb.example" }

/-- Witness for C10: a failed record survives a sweep cycle untouched
and unattempted, and a concrete worker run posts at most once. -/
theorem c10_failed_jobs_never_swept_witness :
    (getVideoRecord
        (runSweeps [c10FailedRec] [(11, fun _ => HttpOutcome.ok200)]).1 "a" =
      some c10FailedRec ∧
      "a" ∉ (runSweeps [c10FailedRec] [(11, fun _ => HttpOutcome.ok200)]).2) ∧
    ((processMessage 3 "bkt" "s3.example" [c10FailedRec]
      (QueueMsg.parsed
        { uploadId := "a", filePath := some "/u/a", filename := some "f.mp4",
          packager := "ffmpeg", callbackUrl := some "http://cb.example",
          s3Path := none })
      TrEnv.transcodeFail HttpOutcome.netError).posts).length ≤ 1 :=
  ⟨c10_failed_jobs_never_swept.2.1 [c10FailedRec] "a" c10FailedRec
      [(11, fun _ => HttpOutcome.ok200)] (by decide) (by decide) (by decide),
    c10_failed_jobs_never_swept.2.2 3 "bkt" "s3.example" [c10FailedRec]
      { uploadId := "a", filePath := some "/u/a", filename := some "f.mp4",
        packager := "ffmpeg", callbackUrl := some "http://cb.example",
        s3Path := none }
      TrEnv.transcodeFail HttpOutcome.netError⟩

theorem hcf_effect (now : Nat) (s : Store) (v : VideoRecord) {r0 : VideoRecord}
    (hg : getVideoRecord s v.id = some r0) :
    ∃ r', getVideoRecord (handleCallbackFailure now s v) v.id = some r' ∧
      r'.callbackRetryCount = v.callbackRetryCount + 1 ∧
      r'.callbackLastAttempt = some now := by
  unfold handleCallbackFailure
  by_cases h4 : 4 ≤ v.callbackRetryCount + 1
  · simp only [if_pos h4]
    refine ⟨_, by rw [upd_get_same, hg, Option.map_some'], ?_, ?_⟩
    · rw [afterUpd_callbackRetryCount]; rfl
    · rw [afterUpd_callbackLastAttempt]; rfl
  · simp only [if_neg h4]
    refine ⟨_, by rw [upd_get_same, hg, Option.map_some'], ?_, ?_⟩
    · rw [afterUpd_callbackRetryCount]; rfl
    · rw [afterUpd_callbackLastAttempt]; rfl

theorem trans_snd_error (now : Nat) (b e : String) (s : Store) (uid : String)
    (sp : Option String) {env : TrEnv} {em : Option String}
    (hfm : env.failMsg = some em) :
    (transcodeAndUpload now b e s uid sp env).2 = Except.error em := by
  cases env with
  | transcodeFail =>
      simp only [TrEnv.failMsg, Option.some.injEq] at hfm
      subst hfm
      rfl
  | uploadFail m =>
      simp only [TrEnv.failMsg, Option.some.injEq] at hfm
      subst hfm
      rfl
  | ok => exact Option.noConfusion hfm

theorem processMessage_callback_effect (now : Nat) (bucket endpoint : String)
    (s : Store) (job : VideoJob) (env : TrEnv) (cb : HttpOutcome)
    (hs : (getVideoRecord s job.uploadId).isSome = true)
    (hj : jsStrTruthy job.callbackUrl = true) :
    ∃ z, getVideoRecord
        (processMessage now bucket endpoint s (QueueMsg.parsed job) env cb).store
        job.uploadId = some z ∧
      (cb = HttpOutcome.ok200 → z.callbackStatus = CallbackStatus.completed ∧
        z.callbackLastAttempt = some now) ∧
      (cb ≠ HttpOutcome.ok200 → z.callbackRetryCount = 1 ∧
        z.callbackLastAttempt = some now) := by
  rcases htr : transcodeAndUpload now bucket endpoint
      ((updateVideoRecord now s job.uploadId
        { status := some Status.processing, progress := some 10 }).1)
      job.uploadId job.s3Path env with ⟨s2, res⟩
  have hs2 : (getVideoRecord s2 job.uploadId).isSome = true := by
    have h := trans_get_isSome now bucket endpoint
      ((updateVideoRecord now s job.uploadId
        { status := some Status.processing, progress := some 10 }).1)
      job.uploadId job.s3Path env
    rw [htr] at h
    simp only [upd_get_isSome, hs] at h
    exact h
  cases res with
  | ok url =>
      simp only [processMessage, htr]
      have hupd : (getVideoRecord
          (updateVideoRecord now s2 job.uploadId
            { status := some Status.completed, progress := some 100,
              streamUrl := some url }).1 job.uploadId).isSome = true := by
        rw [upd_get_isSome]; exact hs2
      obtain ⟨y, hy⟩ := Option.isSome_iff_exists.mp hupd
      exact webhookAttempt_effect now _ job _ cb hy hj
        (by rw [upd_snd_isSome]; exact hs2)
  | error em =>
      simp only [processMessage, htr]
      have hupd : (getVideoRecord
          (updateVideoRecord now s2 job.uploadId
            { status := some Status.failed
              error := some (em.getD "Processing failed") }).1
          job.uploadId).isSome = true := by
        rw [upd_get_isSome]; exact hs2
      obtain ⟨y, hy⟩ := Option.isSome_iff_exists.mp hupd
      exact webhookAttempt_effect now _ job _ cb hy hj
        (by rw [upd_snd_isSome]; exact hs2)

theorem processMessage_failure_record (now : Nat) (bucket endpoint : String)
    (s : Store) (job : VideoJob) (env : TrEnv) (cb : HttpOutcome)
    (em : Option String) (hfm : env.failMsg = some em)
    (hs : (getVideoRecord s job.uploadId).isSome = true) :
    ∃ r, getVideoRecord
        (processMessage now bucket endpoint s (QueueMsg.parsed job) env cb).store
        job.uploadId = some r ∧
      r.status = Status.failed ∧
      r.error = nz (some (em.getD "Processing failed")) := by
  rcases htr : transcodeAndUpload now bucket endpoint
      ((updateVideoRecord now s job.uploadId
        { status := some Status.processing, progress := some 10 }).1)
      job.uploadId job.s3Path env with ⟨s2, res⟩
  have hres : res = Except.error em := by
    have h := trans_snd_error now bucket endpoint
      ((updateVideoRecord now s job.uploadId
        { status := some Status.processing, progress := some 10 }).1)
      job.uploadId job.s3Path hfm
    rw [htr] at h
    exact h
  subst hres
  have hs2 : (getVideoRecord s2 job.uploadId).isSome = true := by
    have h := trans_get_isSome now bucket endpoint
      ((updateVideoRecord now s job.uploadId
        { status := some Status.processing, progress := some 10 }).1)
      job.uploadId job.s3Path env
    rw [htr] at h
    simp only [upd_get_isSome, hs] at h
    exact h
  obtain ⟨x2, hx2⟩ := Option.isSome_iff_exists.mp hs2
  simp only [processMessage, htr]
  have hy : getVideoRecord
      (updateVideoRecord now s2 job.uploadId
        { status := some Status.failed
          error := some (em.getD "Processing failed") }).1 job.uploadId =
      some (afterUpd now
        { status := some Status.failed
          error := some (em.getD "Processing failed") } x2) := by
    rw [upd_get_same, hx2, Option.map_some']
  have hnzS : nz (afterUpd now
      { status := some Status.failed
        error := some (em.getD "Processing failed") } x2).streamUrl =
      (afterUpd now
      { status := some Status.failed
        error := some (em.getD "Processing failed") } x2).streamUrl := by
    rw [afterUpd_streamUrl]
    exact nz_idem _
  have hnzE : nz (afterUpd now
      { status := some Status.failed
        error := some (em.getD "Processing failed") } x2).error =
      (afterUpd now
      { status := some Status.failed
        error := some (em.getD "Processing failed") } x2).error := by
    rw [afterUpd_error]
    exact nz_idem _
  obtain ⟨z, hz, hzS, -, -, hzE, -, -⟩ :=
    webhookAttempt_preserves now _ job _ cb hy hnzS hnzE
  refine ⟨z, hz, ?_, ?_⟩
  · rw [hzS, afterUpd_status]; rfl
  · rw [hzE, afterUpd_error]; rfl

theorem streamUrlFor_ne_empty (bucket endpoint name : String)
    (sp : Option String) : streamUrlFor bucket endpoint name sp ≠ "" := by
  unfold streamUrlFor
  intro hc
  have hlen := congrArg String.length hc
  simp only [String.length_append] at hlen
  have h11 : ("/index.m3u8" : String).length = 11 := rfl
  have h0 : ("" : String).length = 0 := rfl
  omega

/-- Claim C5 (amended): every sweep attempt stamps callbackLastAttempt
and, on HTTP 200, marks callbackStatus completed, otherwise increments
callbackRetryCount by exactly one over the value the sweep read; the
worker's immediate attempt also stamps and marks completed on 200, but
on any other outcome it writes the constant 1 into callbackRetryCount
instead of incrementing the stored value. -/
theorem c5_amended_delivery_attempts :
    (∀ (now : Nat) (s : Store) (v : VideoRecord) (oc : HttpOutcome)
      (r0 : VideoRecord),
      getVideoRecord s v.id = some r0 → jsStrTruthy v.callbackUrl = true →
      (oc = HttpOutcome.ok200 →
        ∃ r', getVideoRecord (processVideoCallback now s v oc) v.id = some r' ∧
          r'.callbackStatus = CallbackStatus.completed ∧
          r'.callbackLastAttempt = some now) ∧
      (oc ≠ HttpOutcome.ok200 →
        ∃ r', getVideoRecord (processVideoCallback now s v oc) v.id = some r' ∧
          r'.callbackRetryCount = v.callbackRetryCount + 1 ∧
          r'.callbackLastAttempt = some now)) ∧
    (∀ (now : Nat) (bucket endpoint : String) (s : Store) (job : VideoJob)
      (env : TrEnv) (cb : HttpOutcome) (r0 : VideoRecord),
      getVideoRecord s job.uploadId = some r0 →
      jsStrTruthy job.callbackUrl = true →
      ∃ r', getVideoRecord
          (processMessage now bucket endpoint s (QueueMsg.parsed job) env
            cb).store job.uploadId = some r' ∧
        (cb = HttpOutcome.ok200 → r'.callbackStatus = CallbackStatus.completed ∧
          r'.callbackLastAttempt = some now) ∧
        (cb ≠ HttpOutcome.ok200 → r'.callbackRetryCount = 1 ∧
          r'.callbackLastAttempt = some now)) := by
  constructor
  · intro now s v oc r0 hg hj
    constructor
    · rintro rfl
      unfold processVideoCallback
      rw [if_neg (by simp [hj])]
      refine ⟨_, by rw [upd_get_same, hg, Option.map_some'], ?_, ?_⟩
      · rw [afterUpd_callbackStatus]; rfl
      · rw [afterUpd_callbackLastAttempt]; rfl
    · intro hne
      unfold processVideoCallback
      rw [if_neg (by simp [hj])]
      cases oc with
      | ok200 => exact absurd rfl hne
      | nonSuccess code => exact hcf_effect now s v hg
      | netError => exact hcf_effect now s v hg
  · intro now bucket endpoint s job env cb r0 hg hj
    exact processMessage_callback_effect now bucket endpoint s job env cb
      (by rw [hg]; rfl) hj

/-- Record whose callback already failed twice, before a duplicate job
re-runs the worker. -/
def c5Rec : VideoRecord :=
  { baseRec with
    callbackUrl := some "http://cb.example"
    callbackRetryCount := 2 }

/-- Job carrying a callback URL for id a. -/
def c5Job : VideoJob :=
  { uploadId := "a"
    filePath := some "/u/a"
    filename := some "f.mp4"
    packager := "ffmpeg"
    callbackUrl := some "http://cb.example"
    s3Path := none }

/-- Claim C5 (counterexample): a failing worker immediate attempt on a
record whose callbackRetryCount is already 2 leaves the count at 1, not
at 3 = 2 + 1, so the attempt does not increment the counter relative to
the record's prior value. -/
theorem c5_counterexample_worker_resets_count :
    ((getVideoRecord [c5Rec] "a").map VideoRecord.callbackRetryCount) =
      some 2 ∧
    ((getVideoRecord (processMessage 7 "bkt" "s3.example" [c5Rec]
        (QueueMsg.parsed c5Job) TrEnv.ok
        (HttpOutcome.nonSuccess 500)).store "a").map
      VideoRecord.callbackRetryCount) = some 1 := ⟨rfl, rfl⟩

/-- A completed record with one failed attempt so far, sweep candidate. -/
def c5SweepRec : VideoRecord :=
  { baseRec with
    status := Status.completed
    callbackUrl := some "http://cb.example"
    callbackStatus := CallbackStatus.pending
    callbackRetryCount := 1 }

/-- Witness for the amended C5 at a concrete sweep attempt and a
concrete worker attempt. -/
theorem c5_amended_delivery_attempts_witness :
    (∃ r', getVideoRecord
        (processVideoCallback 8 [c5SweepRec] c5SweepRec
          (HttpOutcome.nonSuccess 500)) c5SweepRec.id = some r' ∧
      r'.callbackRetryCount = c5SweepRec.callbackRetryCount + 1 ∧
      r'.callbackLastAttempt = some 8) ∧
    (∃ r', getVideoRecord
        (processMessage 9 "bkt" "s3.example" [c5Rec] (QueueMsg.parsed c5Job)
          TrEnv.ok HttpOutcome.ok200).store c5Job.uploadId = some r' ∧
      (HttpOutcome.ok200 = HttpOutcome.ok200 →
        r'.callbackStatus = CallbackStatus.completed ∧
        r'.callbackLastAttempt = some 9) ∧
      (HttpOutcome.ok200 ≠ HttpOutcome.ok200 →
        r'.callbackRetryCount = 1 ∧ r'.callbackLastAttempt = some 9)) :=
  ⟨(c5_amended_delivery_attempts.1 8 [c5SweepRec] c5SweepRec
      (HttpOutcome.nonSuccess 500) c5SweepRec (by decide) (by decide)).2
      (by decide),
    c5_amended_delivery_attempts.2 9 "bkt" "s3.example" [c5Rec] c5Job
      TrEnv.ok HttpOutcome.ok200 c5Rec (by decide) (by decide)⟩

/-- Claim C7: every consumed queue message is acknowledged regardless of
outcome; a malformed payload is dropped (no store change, no POST) and
still acknowledged; and a job failing in the transcode or storage-upload
step gets its record set to status failed with a non-empty error
message (the transcode failure message is a fixed non-empty string; for
a storage failure this assumes the thrown exception's message, if any,
is non-empty), the message still being acknowledged. -/
theorem c7_worker_error_handling :
    (∀ (now : Nat) (bucket endpoint : String) (s : Store) (msg : QueueMsg)
      (env : TrEnv) (cb : HttpOutcome),
      (processMessage now bucket endpoint s msg env cb).acked = true) ∧
    (∀ (now : Nat) (bucket endpoint : String) (s : Store) (env : TrEnv)
      (cb : HttpOutcome),
      (processMessage now bucket endpoint s QueueMsg.malformed env cb).store =
        s ∧
      (processMessage now bucket endpoint s QueueMsg.malformed env cb).posts =
        []) ∧
    (∀ (now : Nat) (bucket endpoint : String) (s : Store) (job : VideoJob)
      (env : TrEnv) (cb : HttpOutcome) (em : Option String) (r0 : VideoRecord),
      env.failMsg = some em → em ≠ some "" →
      getVideoRecord s job.uploadId = some r0 →
      ∃ r m, getVideoRecord
          (processMessage now bucket endpoint s (QueueMsg.parsed job) env
            cb).store job.uploadId = some r ∧
        r.status = Status.failed ∧ r.error = some m ∧ m ≠ "") := by
  refine ⟨?_, ?_, ?_⟩
  · intro now bucket endpoint s msg env cb
    cases msg with
    | malformed => rfl
    | parsed job => cases env <;> rfl
  · intro now bucket endpoint s env cb
    exact ⟨rfl, rfl⟩
  · intro now bucket endpoint s job env cb em r0 hfm hne hg
    have hmne : em.getD "Processing failed" ≠ "" := by
      cases em with
      | none => decide
      | some m =>
          intro hc
          exact hne (by rw [show m = "" from hc])
    obtain ⟨r, hr, hrS, hrE⟩ := processMessage_failure_record now bucket
      endpoint s job env cb em hfm (by rw [hg]; rfl)
    refine ⟨r, em.getD "Processing failed", hr, hrS, ?_, hmne⟩
    rw [hrE, nz_of_ne_empty hmne]

/-- Job without a callback URL for id a. -/
def demoJob : VideoJob :=
  { uploadId := "a"
    filePath := some "/u/a"
    filename := some "f.mp4"
    packager := "ffmpeg"
    callbackUrl := none
    s3Path := none }

/-- Witness for C7: a concrete transcode-failing run acknowledges the
message and records a failed status with a non-empty error. -/
theorem c7_worker_error_handling_witness :
    (processMessage 4 "bkt" "s3.example" [baseRec] (QueueMsg.parsed demoJob)
      TrEnv.transcodeFail HttpOutcome.netError).acked = true ∧
    (∃ r m, getVideoRecord
        (processMessage 4 "bkt" "s3.example" [baseRec]
          (QueueMsg.parsed demoJob) TrEnv.transcodeFail
          HttpOutcome.netError).store demoJob.uploadId = some r ∧
      r.status = Status.failed ∧ r.error = some m ∧ m ≠ "") :=
  ⟨c7_worker_error_handling.1 4 "bkt" "s3.example" [baseRec]
      (QueueMsg.parsed demoJob) TrEnv.transcodeFail HttpOutcome.netError,
    c7_worker_error_handling.2.2 4 "bkt" "s3.example" [baseRec] demoJob
      TrEnv.transcodeFail HttpOutcome.netError
      (some "Failed to transcode video with FFmpeg") baseRec rfl (by decide)
      rfl⟩

/-- Claim C8: after a successful worker run the record has status
completed, progress 100, streamUrl equal to the non-empty manifest URL
returned by the transcode-and-upload step, and completedAt stamped with
the current clock, which under a monotone clock is at least createdAt. -/
theorem c8_successful_run (now : Nat) (bucket endpoint : String) (s : Store)
    (job : VideoJob) (cb : HttpOutcome) (r0 : VideoRecord)
    (hg : getVideoRecord s job.uploadId = some r0)
    (hclock : r0.createdAt ≤ now) :
    ∃ r, getVideoRecord
        (processMessage now bucket endpoint s (QueueMsg.parsed job)
          TrEnv.ok cb).store job.uploadId = some r ∧
      r.status = Status.completed ∧ r.progress = 100 ∧
      r.streamUrl =
        some (streamUrlFor bucket endpoint job.uploadId job.s3Path) ∧
      streamUrlFor bucket endpoint job.uploadId job.s3Path ≠ "" ∧
      r.completedAt = some now ∧ r.createdAt ≤ now := by
  rcases htr : transcodeAndUpload now bucket endpoint
      ((updateVideoRecord now s job.uploadId
        { status := some Status.processing, progress := some 10 }).1)
      job.uploadId job.s3Path TrEnv.ok with ⟨s5, res⟩
  have hres : res =
      Except.ok (streamUrlFor bucket endpoint job.uploadId job.s3Path) := by
    have h : (transcodeAndUpload now bucket endpoint
        ((updateVideoRecord now s job.uploadId
          { status := some Status.processing, progress := some 10 }).1)
        job.uploadId job.s3Path TrEnv.ok).2 =
        Except.ok (streamUrlFor bucket endpoint job.uploadId job.s3Path) := rfl
    rw [htr] at h
    exact h
  subst hres
  obtain ⟨x1, hx1, e1⟩ := upd_exists_createdAt now s job.uploadId
    { status := some Status.processing, progress := some 10 } hg
  obtain ⟨x5, hx5, e5⟩ := trans_exists_createdAt now bucket endpoint _
    job.uploadId job.s3Path TrEnv.ok hx1
  rw [htr] at hx5
  have hx5' : getVideoRecord s5 job.uploadId = some x5 := hx5
  have hurl : streamUrlFor bucket endpoint job.uploadId job.s3Path ≠ "" :=
    streamUrlFor_ne_empty _ _ _ _
  have hy : getVideoRecord
      (updateVideoRecord now s5 job.uploadId
        { status := some Status.completed, progress := some 100
          streamUrl :=
            some (streamUrlFor bucket endpoint job.uploadId job.s3Path) }).1
      job.uploadId =
      some (afterUpd now
        { status := some Status.completed, progress := some 100
          streamUrl :=
            some (streamUrlFor bucket endpoint job.uploadId job.s3Path) }
        x5) := by
    rw [upd_get_same, hx5', Option.map_some']
  have hyS : (afterUpd now
      { status := some Status.completed, progress := some 100
        streamUrl :=
          some (streamUrlFor bucket endpoint job.uploadId job.s3Path) }
      x5).status = Status.completed := by
    rw [afterUpd_status]; rfl
  have hyP : (afterUpd now
      { status := some Status.completed, progress := some 100
        streamUrl :=
          some (streamUrlFor bucket endpoint job.uploadId job.s3Path) }
      x5).progress = 100 := by
    rw [afterUpd_progress]; rfl
  have hyU : (afterUpd now
      { status := some Status.completed, progress := some 100
        streamUrl :=
          some (streamUrlFor bucket endpoint job.uploadId job.s3Path) }
      x5).streamUrl =
      some (streamUrlFor bucket endpoint job.uploadId job.s3Path) := by
    rw [afterUpd_streamUrl]
    exact nz_of_ne_empty hurl
  have hyC : (afterUpd now
      { status := some Status.completed, progress := some 100
        streamUrl :=
          some (streamUrlFor bucket endpoint job.uploadId job.s3Path) }
      x5).completedAt = some now := by
    rw [afterUpd_completedAt]
    simp
  have hyA : (afterUpd now
      { status := some Status.completed, progress := some 100
        streamUrl :=
          some (streamUrlFor bucket endpoint job.uploadId job.s3Path) }
      x5).createdAt = r0.createdAt := by
    rw [afterUpd_createdAt, e5, e1]
  have hnzS : nz (afterUpd now
      { status := some Status.completed, progress := some 100
        streamUrl :=
          some (streamUrlFor bucket endpoint job.uploadId job.s3Path) }
      x5).streamUrl =
      (afterUpd now
      { status := some Status.completed, progress := some 100
        streamUrl :=
          some (streamUrlFor bucket endpoint job.uploadId job.s3Path) }
      x5).streamUrl := by
    rw [hyU]
    exact nz_of_ne_empty hurl
  have hnzE : nz (afterUpd now
      { status := some Status.completed, progress := some 100
        streamUrl :=
          some (streamUrlFor bucket endpoint job.uploadId job.s3Path) }
      x5).error =
      (afterUpd now
      { status := some Status.completed, progress := some 100
        streamUrl :=
          some (streamUrlFor bucket endpoint job.uploadId job.s3Path) }
      x5).error := by
    rw [afterUpd_error]
    exact nz_idem _
  simp only [processMessage, htr]
  obtain ⟨z, hz, hzS, hzP, hzU, hzE, hzC, hzA⟩ :=
    webhookAttempt_preserves now _ job _ cb hy hnzS hnzE
  refine ⟨z, hz, ?_, ?_, ?_, hurl, ?_, ?_⟩
  · rw [hzS, hyS]
  · rw [hzP, hyP]
  · rw [hzU, hyU]
  · rw [hzC, hyC]
  · rw [hzA, hyA]; exact hclock

/-- Witness for C8: a concrete successful run for id a. -/
theorem c8_successful_run_witness :
    ∃ r, getVideoRecord
        (processMessage 6 "bkt" "s3.example" [baseRec]
          (QueueMsg.parsed demoJob) TrEnv.ok HttpOutcome.ok200).store
        demoJob.uploadId = some r ∧
      r.status = Status.completed ∧ r.progress = 100 ∧
      r.streamUrl =
        some (streamUrlFor "bkt" "s3.example" demoJob.uploadId demoJob.s3Path) ∧
      streamUrlFor "bkt" "s3.example" demoJob.uploadId demoJob.s3Path ≠ "" ∧
      r.completedAt = some 6 ∧ r.createdAt ≤ 6 :=
  c8_successful_run 6 "bkt" "s3.example" [baseRec] demoJob HttpOutcome.ok200
    baseRec rfl (by decide)
